import Mathlib

/-!
Verification of the data-loading and table-resolution pipeline of
`src/dashboard.py` (CSV Loader, Type Coercion Heuristic, Analytical Store
registration, Table Resolver, Query Executor).

The Python functions are shallowly embedded as pure Lean functions.
DataFrames are ordered lists of named, typed columns; a column is either an
object (string) column, a datetime column, or a numeric column, each holding
optional cells (a `none` cell is a pandas null / NaT).  The external pandas
date parser (`pd.to_datetime` with `errors='coerce'`), the stringification
used by `.astype(str)`, and the epoch interpretation of numeric columns are
abstracted as parameters collected in `PandasEnv`; the DuckDB engine behind
`run_sql` is abstracted as a function argument.  Python dict semantics
(insertion order, in-place overwrite on key reuse) and the in-place mutation
of copied DataFrames are modelled explicitly.
-/

namespace DvdDashboard

/-- Membership of `needle` as a contiguous substring of `hay`, at the level of
character lists; embeds Python's `needle in hay` test on strings. -/
def strContainsAux (hay : List Char) (needle : List Char) : Bool :=
  match hay with
  | [] => needle.isEmpty
  | _ :: t => needle.isPrefixOf hay || strContainsAux t needle

/-- Python's substring test `needle in hay`. -/
def strContains (hay needle : String) : Bool :=
  strContainsAux hay.toList needle.toList

/-- Python `str.lower()`, embedded as a character-wise map. -/
def pyLower (s : String) : String :=
  String.mk (s.toList.map Char.toLower)

/-- Python `str.replace(' ', '_')`: every space becomes an underscore
(character-wise, since both pattern and replacement are single characters). -/
def underscoreSpaces (s : String) : String :=
  String.mk (s.toList.map (fun c => if c = ' ' then '_' else c))

/-- Root part of `os.path.splitext` on a base filename: everything before the
last dot, or the whole name when no dot occurs.  (The CPython special case
for an all-dots prefix never fires here: names come from `glob("*.csv")`,
which excludes leading-dot files and forces a `.csv` suffix.) -/
def splitextRoot (s : String) : String :=
  let r := s.toList.reverse
  if r.contains '.' then String.mk (((r.dropWhile (fun c => c ≠ '.')).drop 1).reverse)
  else s

/-- One pandas column: an object (string) column, a datetime column, or a
numeric column.  A `none` cell is a null (NaN / NaT). -/
inductive ColData where
  | obj (cells : List (Option String))
  | dt (cells : List (Option Nat))
  | num (cells : List (Option Int))
deriving DecidableEq, Repr

/-- A DataFrame: ordered list of named columns. -/
abbrev DataFrame := List (String × ColData)

/-- The loader's result type: an insertion-ordered mapping (Python dict)
from table key to DataFrame. -/
abbrev TableMap := List (String × DataFrame)

/-- `pd.DataFrame()` — the empty result returned by `run_sql` on failure. -/
def emptyDF : DataFrame := []

/-- External pandas behaviour abstracted as parameters:
`parseDate` is `pd.to_datetime` (`errors='coerce'`) on one stringified value
(`none` meaning NaT); `showDate` is `str()` of a timestamp (used by
`.astype(str)` on a datetime column); `showNum` is `str()` of a number;
`numToDate` is `pd.to_datetime`'s epoch interpretation of a numeric value. -/
structure PandasEnv where
  parseDate : String → Option Nat
  showDate : Nat → String
  showNum : Int → String
  numToDate : Int → Option Nat

/-- The test `df[col].dtype == object` of dashboard.py line 53. -/
def isObjDtype : ColData → Bool
  | .obj _ => true
  | _ => false

/-- Number of cells (rows) stored in a column. -/
def cellCount : ColData → Nat
  | .obj cells => cells.length
  | .dt cells => cells.length
  | .num cells => cells.length

/-- `df[col].dropna().astype(str)` (dashboard.py line 54): drop the null
cells, then stringify what remains. -/
def dropnaStr (env : PandasEnv) : ColData → List String
  | .obj cells => cells.filterMap id
  | .dt cells => (cells.filterMap id).map env.showDate
  | .num cells => (cells.filterMap id).map env.showNum

/-- `pd.to_datetime(df[col], errors='coerce', ...)` applied to a whole column
(dashboard.py line 60): strings are parsed per cell with failures becoming
null, a datetime column is untouched, a numeric column is interpreted as
epoch values. -/
def toDatetimeCol (env : PandasEnv) : ColData → ColData
  | .obj cells => .dt (cells.map (fun c => c.bind env.parseDate))
  | .dt cells => .dt cells
  | .num cells => .dt (cells.map (fun c => c.bind env.numToDate))

/-- The per-column body of `coerce_date_columns` (dashboard.py lines 52-60):
a column is a candidate when its lowercased name contains `"date"` or its
dtype is object; the sample is the first `sample_size` stringified non-null
values; an empty sample is skipped; otherwise the column is re-typed to
datetime exactly when `parsed.notna().sum() / len(parsed) >= threshold`. -/
def coerceCol (env : PandasEnv) (sample_size : Nat) (threshold : ℚ)
    (name : String) (data : ColData) : ColData :=
  if strContains (pyLower name) "date" || isObjDtype data then
    let sample := (dropnaStr env data).take sample_size
    if sample.isEmpty then data
    else
      let parsed := sample.map env.parseDate
      let successes := (parsed.filter Option.isSome).length
      if threshold ≤ (successes : ℚ) / (parsed.length : ℚ) then
        toDatetimeCol env data
      else data
  else data

/-- `coerce_date_columns` on one DataFrame: every column is examined
independently; `df = df.copy()` makes the result a fresh value. -/
def coerceDF (env : PandasEnv) (sample_size : Nat) (threshold : ℚ)
    (df : DataFrame) : DataFrame :=
  df.map (fun p => (p.1, coerceCol env sample_size threshold p.1 p.2))

/-- `coerce_date_columns(dfs, sample_size, threshold)` (dashboard.py
lines 47-62): rebuild the mapping in iteration order, coercing each table. -/
def coerce_date_columns (env : PandasEnv) (sample_size : Nat) (threshold : ℚ)
    (dfs : TableMap) : TableMap :=
  dfs.map (fun p => (p.1, coerceDF env sample_size threshold p.2))

/-- The columns of a DataFrame whose sample is taken (line 54 runs: the
column is stringified via `.astype(str)` and fed to `pd.to_datetime`):
exactly the candidate columns of the heuristic. -/
def candidateCols (df : DataFrame) : List String :=
  (df.filter (fun p => strContains (pyLower p.1) "date" || isObjDtype p.2)).map
    (fun p => p.1)

/-- One enumerated `*.csv` file, abstracted by its base filename and the two
parse outcomes: `strict` is `pd.read_csv(f, low_memory=False)` and `perm` is
the fallback `pd.read_csv(f, engine="python")`; `none` means the parser
raises on this file. -/
structure CsvFile where
  fname : String
  strict : Option DataFrame
  perm : Option DataFrame
deriving DecidableEq, Repr

/-- Python `dfs[key] = df` on a dict: when the key is present, overwrite its
value in place (the key keeps its original position); otherwise append the
new binding at the end, preserving insertion order. -/
def dictInsert : TableMap → String → DataFrame → TableMap
  | [], k, v => [(k, v)]
  | p :: ps, k, v => if p.1 == k then (k, v) :: ps else p :: dictInsert ps k v

/-- The loop of `load_csvs_from_folder` (dashboard.py lines 37-43): per file,
try the strict parser, fall back to the permissive one; the fallback is not
guarded, so a file failing both raises, aborting the whole load (the raised
error carries the filename). -/
def loadGo : List CsvFile → TableMap → Except String TableMap
  | [], acc => .ok acc
  | f :: fs, acc =>
    match f.strict with
    | some df => loadGo fs (dictInsert acc (splitextRoot f.fname) df)
    | none =>
      match f.perm with
      | some df => loadGo fs (dictInsert acc (splitextRoot f.fname) df)
      | none => .error f.fname

/-- `load_csvs_from_folder` (dashboard.py lines 34-44), over the enumerated
file list (glob order). -/
def load_csvs_from_folder (files : List CsvFile) : Except String TableMap :=
  loadGo files []

/-- The DataFrame the loader stores for a file: the strict parse when it
succeeds, otherwise the permissive one. -/
def chosenDf (f : CsvFile) : Option DataFrame :=
  f.strict.orElse (fun _ => f.perm)

/-- Lookup in the loader's result mapping. -/
def valueAt (m : TableMap) (k : String) : Option DataFrame :=
  (m.find? (fun p => p.1 == k)).map (fun p => p.2)

/-- The DataFrame the last enumerated file with stripped base name `k`
contributes — the "last write wins" value for key `k` (later files take
precedence over earlier ones). -/
def specLast (files : List CsvFile) (k : String) : Option DataFrame :=
  match files with
  | [] => none
  | f :: fs =>
    (specLast fs k).orElse (fun _ => if splitextRoot f.fname == k then chosenDf f else none)

/-- `name.lower().replace(' ', '_')` (dashboard.py line 68): the name under
which a table is registered in the DuckDB store. -/
def normalizeName (s : String) : String :=
  underscoreSpaces (pyLower s)

/-- The names registered by `create_duckdb_connection` (dashboard.py
lines 65-70), in registration order. -/
def registeredNames (dfs : TableMap) : List String :=
  dfs.map (fun p => normalizeName p.1)

/-- Inner loop of `get_table` (dashboard.py lines 377-379): first table in
load order whose lowercased name contains the candidate substring. -/
def findMatch (cand : String) : List String → Option String
  | [] => none
  | n :: ns => if strContains (pyLower n) cand then some n else findMatch cand ns

/-- `get_table(candidates)` (dashboard.py lines 375-380): scan candidates in
priority order, and within each candidate scan the loaded table names in
their original order, returning the first containment match. -/
def get_table (candidates tableNames : List String) : Option String :=
  match candidates with
  | [] => none
  | c :: cs => (findMatch c tableNames).orElse (fun _ => get_table cs tableNames)

/-- The Table Resolver as the spec words it: for each candidate substring in
priority order, the first loaded table name whose lowercased form contains
the candidate as a substring. -/
def specResolve (candidates tableNames : List String) : Option String :=
  candidates.findSome? (fun c => tableNames.find? (fun n => strContains (pyLower n) c))

/-- `run_sql(con, sql)` (dashboard.py lines 73-78): the DuckDB engine is
abstracted as a function from store and SQL text to a result or an error
message; on error the wrapper reports `"SQL execution error: ..."` (the
`st.error` call, returned here as the second component) and yields an empty
DataFrame.  The wrapper passes the store through untouched: it returns no
modified store. -/
def run_sql {σ : Type} (execEngine : σ → String → Except String DataFrame)
    (con : σ) (sql : String) : DataFrame × Option String :=
  match execEngine con sql with
  | .ok df => (df, none)
  | .error e => (emptyDF, some ("SQL execution error: " ++ e))

/-- Heap-passing model of `coerce_date_columns` for the mutation claim: the
heap holds every live DataFrame, and the input mapping holds references
(indices) into it.  `df = df.copy()` allocates a fresh slot; the subsequent
`df[col] = ...` assignments hit only that fresh slot, so the appended value
is already the fully coerced copy; the output dict maps each name to the
fresh reference. -/
def coerceHeap (env : PandasEnv) (sample_size : Nat) (threshold : ℚ) :
    List DataFrame → List (String × Nat) → List DataFrame × List (String × Nat)
  | heap, [] => (heap, [])
  | heap, (name, r) :: rest =>
    let heap2 := heap ++ [coerceDF env sample_size threshold (heap.getD r emptyDF)]
    let res := coerceHeap env sample_size threshold heap2 rest
    (res.1, (name, heap.length) :: res.2)

/-- Concrete executor witness data: a two-SQL toy engine over a unit store. -/
def engW : Unit → String → Except String DataFrame :=
  fun _ s => if s = "SELECT 1" then .ok [("one", ColData.num [some 1])]
             else .error "Parser Error"

/-- Concrete pandas environment for witnesses: every string parses (to its
length), and a timestamp `t` prints as `t` copies of `'x'`, so printing then
parsing recovers `t`. -/
def envW : PandasEnv where
  parseDate := fun s => some s.length
  showDate := fun t => String.mk (List.replicate t 'x')
  showNum := fun _ => "n"
  numToDate := fun _ => none

/-- Concrete pandas environment for boundary tests: exactly the strings
containing `"2005"` parse (to timestamp 5). -/
def envB : PandasEnv where
  parseDate := fun s => if strContains s "2005" then some 5 else none
  showDate := fun _ => "2005-05-25 00:00:00"
  showNum := fun _ => "n"
  numToDate := fun _ => none

/-- Ten-value column with exactly six parseable entries under `envB`. -/
def colSix : ColData :=
  ColData.obj [some "2005-1", some "2005-2", some "2005-3", some "2005-4",
    some "2005-5", some "2005-6", some "a", some "b", some "c", some "d"]

/-- Ten-value column with exactly five parseable entries under `envB`. -/
def colFive : ColData :=
  ColData.obj [some "2005-1", some "2005-2", some "2005-3", some "2005-4",
    some "2005-5", some "a", some "b", some "c", some "d", some "e"]

/-! ## Helper lemmas -/

theorem findMatch_eq_find? (c : String) (ts : List String) :
    findMatch c ts = ts.find? (fun n => strContains (pyLower n) c) := by
  induction ts with
  | nil => rfl
  | cons n ns ih =>
    by_cases h : strContains (pyLower n) c <;> simp [findMatch, List.find?_cons, h, ih]

theorem get_table_eq_specResolve (cs ts : List String) :
    get_table cs ts = specResolve cs ts := by
  induction cs with
  | nil => rfl
  | cons c cs ih =>
    rw [get_table, specResolve, findMatch_eq_find?]
    cases h : ts.find? (fun n => strContains (pyLower n) c) with
    | none =>
      simp only [List.findSome?_cons, h, Option.orElse]
      rw [ih]
      rfl
    | some t => simp [List.findSome?_cons, h, Option.orElse]

theorem cellCount_toDatetimeCol (env : PandasEnv) (data : ColData) :
    cellCount (toDatetimeCol env data) = cellCount data := by
  cases data <;> simp [toDatetimeCol, cellCount]

theorem cellCount_coerceCol (env : PandasEnv) (ss : Nat) (th : ℚ)
    (name : String) (data : ColData) :
    cellCount (coerceCol env ss th name data) = cellCount data := by
  simp only [coerceCol]
  split
  · split
    · rfl
    · split
      · exact cellCount_toDatetimeCol env data
      · rfl
  · rfl

theorem coerceCol_score_eq (env : PandasEnv) (ss : Nat) (th : ℚ) (name : String)
    (data : ColData)
    (hc : (strContains (pyLower name) "date" || isObjDtype data) = true)
    (hne : ((dropnaStr env data).take ss).isEmpty = false) :
    coerceCol env ss th name data =
      if th ≤
          (((((dropnaStr env data).take ss).map env.parseDate).filter Option.isSome).length : ℚ) /
          ((((dropnaStr env data).take ss)).length : ℚ)
      then toDatetimeCol env data else data := by
  simp only [coerceCol, hc, if_true, hne, Bool.false_eq_true, if_false,
    List.length_map]

/-! ## Claims -/

/-- C3: the Table Resolver returns the first table, iterating candidates in
priority order and tables in load order, whose lowercased name contains the
candidate as a substring (`specResolve` is that algorithm written from the
spec's words); it returns none exactly when no table name contains any
candidate; and on tables `["customer_old", "customer_new"]` with candidate
`["customer"]` it returns `"customer_old"`. -/
theorem get_table_first_match (candidates tableNames : List String) :
    get_table candidates tableNames = specResolve candidates tableNames ∧
    (get_table candidates tableNames = none ↔
      ∀ c ∈ candidates, ∀ n ∈ tableNames, strContains (pyLower n) c = false) ∧
    get_table ["customer"] ["customer_old", "customer_new"] = some "customer_old" := by
  refine ⟨get_table_eq_specResolve candidates tableNames, ?_, by decide⟩
  rw [get_table_eq_specResolve, specResolve, List.findSome?_eq_none_iff]
  constructor
  · intro h c hc n hn
    have := List.find?_eq_none.mp (h c hc) n hn
    simpa using this
  · intro h c hc
    exact List.find?_eq_none.mpr (fun n hn => by simp [h c hc n hn])

/-- C4: for every SQL string whose execution fails, `run_sql` catches the
failure, reports the error message, and returns the empty DataFrame; the
store (threaded as an explicit value, never returned modified) is untouched,
so a subsequent valid query against the same store still succeeds. -/
theorem run_sql_isolates_failure {σ : Type}
    (execEngine : σ → String → Except String DataFrame) (con : σ)
    (sql sql2 : String) (df2 : DataFrame) (e : String)
    (hfail : execEngine con sql = .error e)
    (hok : execEngine con sql2 = .ok df2) :
    run_sql execEngine con sql = (emptyDF, some ("SQL execution error: " ++ e)) ∧
    run_sql execEngine con sql2 = (df2, none) := by
  rw [run_sql, run_sql, hfail, hok]
  exact ⟨rfl, rfl⟩

/-- Witness for C4 on a concrete engine: `"SELEC"` fails and reports, the
subsequent `"SELECT 1"` still succeeds. -/
theorem run_sql_isolates_failure_witness :
    engW () "SELEC" = .error "Parser Error" ∧
    engW () "SELECT 1" = .ok [("one", ColData.num [some 1])] ∧
    (run_sql engW () "SELEC" = (emptyDF, some ("SQL execution error: " ++ "Parser Error")) ∧
     run_sql engW () "SELECT 1" = ([("one", ColData.num [some 1])], none)) :=
  ⟨by rfl, by rfl,
   run_sql_isolates_failure engW () "SELEC" "SELECT 1" _ _ (by rfl) (by rfl)⟩

theorem coerceCol_cases (env : PandasEnv) (ss : Nat) (th : ℚ) (name : String)
    (data : ColData) :
    coerceCol env ss th name data = data ∨
      coerceCol env ss th name data = toDatetimeCol env data := by
  simp only [coerceCol]
  split
  · split
    · exact Or.inl rfl
    · split
      · exact Or.inr rfl
      · exact Or.inl rfl
  · exact Or.inl rfl

theorem coerceDF_frame (env : PandasEnv) (ss : Nat) (th : ℚ) (df : DataFrame) :
    List.Forall₂
      (fun c d => c.1 = d.1 ∧ (d.2 = c.2 ∨ d.2 = toDatetimeCol env c.2))
      df (coerceDF env ss th df) := by
  induction df with
  | nil => exact List.Forall₂.nil
  | cons q qs ih =>
    simp only [coerceDF, List.map_cons] at ih ⊢
    refine List.Forall₂.cons ⟨rfl, ?_⟩ ih
    exact coerceCol_cases env ss th q.1 q.2

/-- C9: the Type Coercion Heuristic preserves the table keys (in order);
every output table has the same column names in the same order and the same
per-column row counts as the corresponding input table; and only column
types may change: each output column is either the input column unchanged or
its whole-column tolerant re-parse `toDatetimeCol` (cells parsed pointwise,
unparsable values becoming null). -/
theorem coerce_preserves_shape (env : PandasEnv) (ss : Nat) (th : ℚ) (dfs : TableMap) :
    (coerce_date_columns env ss th dfs).map Prod.fst = dfs.map Prod.fst ∧
    (coerce_date_columns env ss th dfs).map (fun p => p.2.map Prod.fst) =
      dfs.map (fun p => p.2.map Prod.fst) ∧
    (coerce_date_columns env ss th dfs).map (fun p => p.2.map (fun q => cellCount q.2)) =
      dfs.map (fun p => p.2.map (fun q => cellCount q.2)) ∧
    List.Forall₂
      (fun p q => p.1 = q.1 ∧
        List.Forall₂
          (fun c d => c.1 = d.1 ∧ (d.2 = c.2 ∨ d.2 = toDatetimeCol env c.2))
          p.2 q.2)
      dfs (coerce_date_columns env ss th dfs) := by
  refine ⟨?_, ?_, ?_, ?_⟩
  · simp only [coerce_date_columns, List.map_map]
    exact List.map_congr_left (fun p _ => rfl)
  · simp only [coerce_date_columns, List.map_map]
    refine List.map_congr_left (fun p _ => ?_)
    show (coerceDF env ss th p.2).map Prod.fst = p.2.map Prod.fst
    simp only [coerceDF, List.map_map]
    exact List.map_congr_left (fun q _ => rfl)
  · simp only [coerce_date_columns, List.map_map]
    refine List.map_congr_left (fun p _ => ?_)
    show (coerceDF env ss th p.2).map (fun q => cellCount q.2) =
      p.2.map (fun q => cellCount q.2)
    simp only [coerceDF, List.map_map]
    refine List.map_congr_left (fun q _ => ?_)
    show cellCount (coerceCol env ss th q.1 q.2) = cellCount q.2
    exact cellCount_coerceCol env ss th q.1 q.2
  · induction dfs with
    | nil => exact List.Forall₂.nil
    | cons p ps ih =>
      simp only [coerce_date_columns, List.map_cons] at ih ⊢
      exact List.Forall₂.cons ⟨rfl, coerceDF_frame env ss th p.2⟩ ih

/-- C10: the heuristic never mutates its input.  In the heap-passing model,
`df.copy()` writes only to a fresh slot, so the output heap extends the
input heap: every DataFrame the input mapping references is unchanged after
the call (and the result mapping carries the same names in order). -/
theorem coerceHeap_preserves_input (env : PandasEnv) (ss : Nat) (th : ℚ)
    (heap : List DataFrame) (dict : List (String × Nat)) :
    (∃ ext, (coerceHeap env ss th heap dict).1 = heap ++ ext) ∧
    (coerceHeap env ss th heap dict).2.map Prod.fst = dict.map Prod.fst := by
  induction dict generalizing heap with
  | nil => exact ⟨⟨[], by simp [coerceHeap]⟩, by simp [coerceHeap]⟩
  | cons p rest ih =>
    obtain ⟨⟨ext, hext⟩, hnames⟩ :=
      ih (heap ++ [coerceDF env ss th (heap.getD p.2 emptyDF)])
    refine ⟨⟨coerceDF env ss th (heap.getD p.2 emptyDF) :: ext, ?_⟩, ?_⟩
    · rw [coerceHeap]
      simpa using hext
    · rw [coerceHeap]
      simpa using hnames

/-- C1 counterexample: with `sample_size = 2000` and threshold `0.6` (= 3/5),
a candidate column with a single parseable non-null value is promoted by the
code (its score is 1/1 = 1), although the claim's formula
`parsed / sample_size = 1/2000` is below the threshold and predicts no
promotion. -/
theorem coerce_score_denominator_cex :
    coerceCol envW 2000 (3/5) "c" (ColData.obj [some "D1"]) = ColData.dt [some 2] ∧
    ¬ ((3 : ℚ)/5 ≤ 1 / 2000) := by
  constructor
  · rw [coerceCol_score_eq envW 2000 (3/5) "c" (ColData.obj [some "D1"])
      (by decide) (by decide)]
    have h1 : (dropnaStr envW (ColData.obj [some "D1"])).take 2000 = ["D1"] := by decide
    rw [h1]
    have h2 : (((["D1"] : List String).map envW.parseDate).filter Option.isSome).length = 1 := by
      decide
    rw [h2]
    have h3 : (["D1"] : List String).length = 1 := by decide
    rw [h3]
    rw [if_pos (by norm_num)]
    decide
  · norm_num

/-- C1 (amended): for every candidate column with a non-empty non-null
sample, the confidence score's denominator is the sample length
`min sample_size (number of non-null values)` — not `sample_size` itself —
and the column is promoted exactly when `successes / sample_length` reaches
the threshold. -/
theorem coerce_confidence_score (env : PandasEnv) (ss : Nat) (th : ℚ)
    (name : String) (data : ColData)
    (hc : (strContains (pyLower name) "date" || isObjDtype data) = true)
    (hne : ((dropnaStr env data).take ss).isEmpty = false) :
    ((dropnaStr env data).take ss).length = min ss (dropnaStr env data).length ∧
    coerceCol env ss th name data =
      (if th ≤
          (((((dropnaStr env data).take ss).map env.parseDate).filter Option.isSome).length : ℚ) /
          ((((dropnaStr env data).take ss)).length : ℚ)
       then toDatetimeCol env data else data) :=
  ⟨List.length_take ss (dropnaStr env data),
   coerceCol_score_eq env ss th name data hc hne⟩

/-- Witness for C1 (amended) on a column of four non-null values sampled with
`sample_size = 3`. -/
theorem coerce_confidence_score_witness :
    ((strContains (pyLower "c") "date" ||
      isObjDtype (ColData.obj [some "a", some "bb", none, some "cccc", some "d"])) = true) ∧
    (((dropnaStr envW (ColData.obj [some "a", some "bb", none, some "cccc", some "d"])).take 3).isEmpty
      = false) ∧
    (((dropnaStr envW (ColData.obj [some "a", some "bb", none, some "cccc", some "d"])).take 3).length
        = min 3 (dropnaStr envW (ColData.obj [some "a", some "bb", none, some "cccc", some "d"])).length ∧
     coerceCol envW 3 (3/5) "c" (ColData.obj [some "a", some "bb", none, some "cccc", some "d"]) =
      (if (3:ℚ)/5 ≤
          ((((dropnaStr envW (ColData.obj [some "a", some "bb", none, some "cccc", some "d"])).take 3).map envW.parseDate).filter Option.isSome).length /
          (((dropnaStr envW (ColData.obj [some "a", some "bb", none, some "cccc", some "d"])).take 3).length : ℚ)
       then toDatetimeCol envW (ColData.obj [some "a", some "bb", none, some "cccc", some "d"])
       else ColData.obj [some "a", some "bb", none, some "cccc", some "d"])) :=
  ⟨by decide, by decide,
   coerce_confidence_score envW 3 (3/5) "c"
     (ColData.obj [some "a", some "bb", none, some "cccc", some "d"])
     (by decide) (by decide)⟩

/-- C7: the threshold boundary is inclusive.  With threshold 0.6 (= 3/5), a
candidate column whose 10-value sample has exactly 6 parseable entries is
promoted, while one with only 5 of 10 parseable entries is left unchanged. -/
theorem coerce_threshold_boundary :
    coerceCol envB 2000 (3/5) "v" colSix =
      ColData.dt [some 5, some 5, some 5, some 5, some 5, some 5,
        none, none, none, none] ∧
    coerceCol envB 2000 (3/5) "w" colFive = colFive := by
  constructor
  · rw [coerceCol_score_eq envB 2000 (3/5) "v" colSix (by decide) (by decide)]
    have h2 : (((((dropnaStr envB colSix).take 2000)).map envB.parseDate).filter
        Option.isSome).length = 6 := by decide
    rw [h2]
    have h3 : ((dropnaStr envB colSix).take 2000).length = 10 := by decide
    rw [h3]
    rw [if_pos (by norm_num)]
    decide
  · rw [coerceCol_score_eq envB 2000 (3/5) "w" colFive (by decide) (by decide)]
    have h2 : (((((dropnaStr envB colFive).take 2000)).map envB.parseDate).filter
        Option.isSome).length = 5 := by decide
    rw [h2]
    have h3 : ((dropnaStr envB colFive).take 2000).length = 10 := by decide
    rw [h3]
    rw [if_neg (by norm_num)]

theorem toDatetimeCol_is_dt (env : PandasEnv) (data : ColData) :
    ∃ cells, toDatetimeCol env data = ColData.dt cells := by
  cases data <;> exact ⟨_, rfl⟩

theorem coerceCol_dt (env : PandasEnv) (ss : Nat) (th : ℚ) (name : String)
    (cells : List (Option Nat)) :
    coerceCol env ss th name (ColData.dt cells) = ColData.dt cells := by
  simp only [coerceCol]
  split
  · split
    · rfl
    · split
      · rfl
      · rfl
  · rfl

theorem coerceCol_idem (env : PandasEnv) (ss : Nat) (th : ℚ) (name : String)
    (data : ColData) :
    coerceCol env ss th name (coerceCol env ss th name data) =
      coerceCol env ss th name data := by
  have hcases : coerceCol env ss th name data = data ∨
      ∃ cells, coerceCol env ss th name data = ColData.dt cells := by
    simp only [coerceCol]
    split
    · split
      · exact Or.inl rfl
      · split
        · exact Or.inr (toDatetimeCol_is_dt env data)
        · exact Or.inl rfl
    · exact Or.inl rfl
  rcases hcases with h | ⟨cells, h⟩
  · rw [h]
    exact h
  · rw [h]
    exact coerceCol_dt env ss th name cells

theorem coerceDF_idem (env : PandasEnv) (ss : Nat) (th : ℚ) (df : DataFrame) :
    coerceDF env ss th (coerceDF env ss th df) = coerceDF env ss th df := by
  simp only [coerceDF, List.map_map]
  refine List.map_congr_left (fun q _ => ?_)
  show (q.1, coerceCol env ss th q.1 (coerceCol env ss th q.1 q.2)) =
    (q.1, coerceCol env ss th q.1 q.2)
  rw [coerceCol_idem]

/-- C5 counterexample: a column promoted to temporal whose name contains
`"date"` IS re-sampled as strings by a second run — it is again a candidate
(line 53's name test fires), so line 54 stringifies it and feeds it to the
parser.  Concretely, coercing `payment.payment_date` promotes it to a
datetime column, and that promoted column is again among the sampling
candidates of the coerced output. -/
theorem coerce_resamples_promoted_cex :
    coerce_date_columns envB 2000 (3/5)
        [("payment", [("payment_date", ColData.obj [some "2005-05-25"])])] =
      [("payment", [("payment_date", ColData.dt [some 5])])] ∧
    candidateCols [("payment_date", ColData.dt [some 5])] = ["payment_date"] := by
  have hinner : coerceCol envB 2000 (3/5) "payment_date"
      (ColData.obj [some "2005-05-25"]) = ColData.dt [some 5] := by
    rw [coerceCol_score_eq envB 2000 (3/5) "payment_date"
      (ColData.obj [some "2005-05-25"]) (by decide) (by decide)]
    have h2 : (((((dropnaStr envB (ColData.obj [some "2005-05-25"])).take 2000)).map
        envB.parseDate).filter Option.isSome).length = 1 := by decide
    rw [h2]
    have h3 : ((dropnaStr envB (ColData.obj [some "2005-05-25"])).take 2000).length = 1 := by
      decide
    rw [h3]
    rw [if_pos (by norm_num)]
    decide
  exact ⟨by simp [coerce_date_columns, coerceDF, hinner], by decide⟩

/-- C5 (amended): the Type Coercion Heuristic is idempotent — a second run on
its own output retypes no column and returns an identical table set — but
not because temporal columns are skipped: a temporal column is still a
candidate when its name contains `"date"`.  Rather, the per-column pass
leaves every datetime column unchanged (whatever its sample parses to,
re-typing a datetime column is the identity), and an unpromoted column faces
the identical decision again. -/
theorem coerce_idempotent (env : PandasEnv) (ss : Nat) (th : ℚ) (dfs : TableMap) :
    coerce_date_columns env ss th (coerce_date_columns env ss th dfs) =
      coerce_date_columns env ss th dfs ∧
    ∀ name cells, coerceCol env ss th name (ColData.dt cells) = ColData.dt cells := by
  refine ⟨?_, fun name cells => coerceCol_dt env ss th name cells⟩
  simp only [coerce_date_columns, List.map_map]
  refine List.map_congr_left (fun p _ => ?_)
  show (p.1, coerceDF env ss th (coerceDF env ss th p.2)) = (p.1, coerceDF env ss th p.2)
  rw [coerceDF_idem]

/-- A one-column DataFrame used as a concrete parsed file. -/
def dfG : DataFrame := [("x", ColData.num [some 1])]

/-- A second concrete DataFrame, distinct from `dfG`. -/
def dfG2 : DataFrame := [("y", ColData.num [some 2])]

/-- C2 counterexample: a file failing both the strict and the permissive
parser is not skipped — the unguarded fallback raises, so the whole load
aborts and no mapping is produced, although the same folder without that
file loads fine. -/
theorem loader_double_failure_cex :
    load_csvs_from_folder [⟨"good.csv", some dfG, none⟩, ⟨"bad.csv", none, none⟩] =
      Except.error "bad.csv" ∧
    load_csvs_from_folder [⟨"good.csv", some dfG, none⟩] = Except.ok [("good", dfG)] :=
  ⟨rfl, rfl⟩

theorem loadGo_error_iff (files : List CsvFile) (acc : TableMap) :
    (∃ e, loadGo files acc = Except.error e) ↔
      ∃ f ∈ files, f.strict = none ∧ f.perm = none := by
  induction files generalizing acc with
  | nil => simp [loadGo]
  | cons f fs ih =>
    cases hs : f.strict with
    | some df => simp [loadGo, hs, ih]
    | none =>
      cases hp : f.perm with
      | some df => simp [loadGo, hs, hp, ih]
      | none => simp [loadGo, hs, hp]

/-- C2 (amended): a file whose parse fails under both the strict and the
permissive parser aborts the overall load — the fallback parse is not
guarded, so its error propagates out of the loader; the load succeeds
exactly when every enumerated file parses under at least one strategy. -/
theorem loader_aborts_on_double_failure (files : List CsvFile) :
    (∃ e, load_csvs_from_folder files = Except.error e) ↔
      ∃ f ∈ files, f.strict = none ∧ f.perm = none :=
  loadGo_error_iff files []

/-- Number of entries of the mapping carrying key `k`. -/
def keyCount (m : TableMap) (k : String) : Nat :=
  (m.filter (fun p => p.1 == k)).length

theorem valueAt_cons (p : String × DataFrame) (m : TableMap) (k : String) :
    valueAt (p :: m) k = if p.1 = k then some p.2 else valueAt m k := by
  by_cases h : p.1 = k
  · simp [valueAt, List.find?_cons, h]
  · simp [valueAt, List.find?_cons, h, beq_false_of_ne h]

theorem valueAt_dictInsert (m : TableMap) (k key : String) (v : DataFrame) :
    valueAt (dictInsert m key v) k = if key = k then some v else valueAt m k := by
  induction m with
  | nil =>
    by_cases h : key = k <;> simp [dictInsert, valueAt_cons, valueAt, h]
  | cons p ps ih =>
    by_cases hp : p.1 = key
    · rw [dictInsert, if_pos (by simp [hp])]
      by_cases hk : key = k
      · simp [valueAt_cons, hk]
      · have hpk : ¬ p.1 = k := by rw [hp]; exact hk
        simp [valueAt_cons, hk, hpk]
    · rw [dictInsert, if_neg (by simp [hp])]
      by_cases hpk : p.1 = k
      · have hk : ¬ key = k := fun h => hp (hpk.trans h.symm)
        simp [valueAt_cons, hpk, hk]
      · simp [valueAt_cons, hpk, ih]

theorem keyCount_nil (k : String) : keyCount [] k = 0 := rfl

theorem keyCount_cons (p : String × DataFrame) (m : TableMap) (k : String) :
    keyCount (p :: m) k = keyCount m k + (if p.1 = k then 1 else 0) := by
  by_cases h : p.1 = k
  · simp [keyCount, List.filter_cons, h]
  · simp [keyCount, List.filter_cons, h, beq_false_of_ne h]

theorem keyCount_dictInsert (m : TableMap) (k key : String) (v : DataFrame) :
    keyCount (dictInsert m key v) k =
      if key = k then (if keyCount m k = 0 then 1 else keyCount m k)
      else keyCount m k := by
  induction m with
  | nil =>
    by_cases h : key = k <;> simp [dictInsert, keyCount_cons, keyCount_nil, h]
  | cons p ps ih =>
    by_cases hp : p.1 = key
    · rw [dictInsert, if_pos (by simp [hp])]
      rw [keyCount_cons, keyCount_cons]
      by_cases hk : key = k
      · subst hk
        simp [hp]
      · have hpk : ¬ p.1 = k := by rw [hp]; exact hk
        simp [hk, hpk]
    · rw [dictInsert, if_neg (by simp [hp])]
      rw [keyCount_cons, keyCount_cons, ih]
      by_cases hpk : p.1 = k
      · have hk : ¬ key = k := fun h => hp (hpk.trans h.symm)
        simp [hk, hpk]
      · simp [hpk]

theorem loadGo_valueAt (files : List CsvFile) (acc m : TableMap) (k : String)
    (h : loadGo files acc = Except.ok m) :
    valueAt m k = (specLast files k).orElse (fun _ => valueAt acc k) := by
  induction files generalizing acc with
  | nil =>
    simp only [loadGo, Except.ok.injEq] at h
    subst h
    simp [specLast, Option.orElse]
  | cons f fs ih =>
    cases hs : f.strict with
    | some df =>
      simp only [loadGo, hs] at h
      rw [ih _ h, valueAt_dictInsert, specLast]
      cases hsl : specLast fs k
      · by_cases hk : splitextRoot f.fname = k
        · simp [Option.orElse, chosenDf, hs, hk]
        · simp [Option.orElse, chosenDf, hs, hk, beq_false_of_ne hk]
      · simp [Option.orElse]
    | none =>
      cases hp : f.perm with
      | some df =>
        simp only [loadGo, hs, hp] at h
        rw [ih _ h, valueAt_dictInsert, specLast]
        cases hsl : specLast fs k
        · by_cases hk : splitextRoot f.fname = k
          · simp [Option.orElse, chosenDf, hs, hp, hk]
          · simp [Option.orElse, chosenDf, hs, hp, hk, beq_false_of_ne hk]
        · simp [Option.orElse]
      | none =>
        simp only [loadGo, hs, hp] at h
        exact Except.noConfusion h

theorem loadGo_keyCount (files : List CsvFile) (acc m : TableMap) (k : String)
    (h : loadGo files acc = Except.ok m) (hacc : keyCount acc k ≤ 1) :
    keyCount m k ≤ 1 := by
  induction files generalizing acc with
  | nil =>
    simp only [loadGo, Except.ok.injEq] at h
    subst h
    exact hacc
  | cons f fs ih =>
    have hins : ∀ key v, keyCount (dictInsert acc key v) k ≤ 1 := by
      intro key v
      rw [keyCount_dictInsert]
      by_cases hk : key = k
      · simp only [hk, if_true]
        by_cases h0 : keyCount acc k = 0 <;> simp [h0, hacc]
      · simpa [hk] using hacc
    cases hs : f.strict with
    | some df =>
      simp only [loadGo, hs] at h
      exact ih _ h (hins _ df)
    | none =>
      cases hp : f.perm with
      | some df =>
        simp only [loadGo, hs, hp] at h
        exact ih _ h (hins _ df)
      | none =>
        simp only [loadGo, hs, hp] at h
        exact Except.noConfusion h

theorem mem_dictInsert (p : String × DataFrame) (m : TableMap) (k : String)
    (v : DataFrame) (hp : p ∈ dictInsert m k v) : p = (k, v) ∨ p ∈ m := by
  induction m with
  | nil =>
    simp only [dictInsert, List.mem_singleton] at hp
    exact Or.inl hp
  | cons q qs ih =>
    by_cases hq : q.1 = k
    · rw [dictInsert, if_pos (by simp [hq])] at hp
      rcases List.mem_cons.mp hp with h | h
      · exact Or.inl h
      · exact Or.inr (List.mem_cons_of_mem q h)
    · rw [dictInsert, if_neg (by simp [hq])] at hp
      rcases List.mem_cons.mp hp with h | h
      · exact Or.inr (h ▸ List.mem_cons_self q qs)
      · rcases ih h with h1 | h1
        · exact Or.inl h1
        · exact Or.inr (List.mem_cons_of_mem q h1)

theorem loadGo_mem (files : List CsvFile) (acc m : TableMap)
    (h : loadGo files acc = Except.ok m) (p : String × DataFrame) (hp : p ∈ m) :
    (∃ f ∈ files, p.1 = splitextRoot f.fname ∧ chosenDf f = some p.2) ∨ p ∈ acc := by
  induction files generalizing acc with
  | nil =>
    simp only [loadGo, Except.ok.injEq] at h
    subst h
    exact Or.inr hp
  | cons f fs ih =>
    cases hs : f.strict with
    | some df =>
      simp only [loadGo, hs] at h
      rcases ih _ h with h1 | h1
      · rcases h1 with ⟨g, hg, hgp⟩
        exact Or.inl ⟨g, List.mem_cons_of_mem f hg, hgp⟩
      · rcases mem_dictInsert p acc _ df h1 with h2 | h2
        · refine Or.inl ⟨f, List.mem_cons_self f fs, ?_, ?_⟩
          · rw [h2]
          · rw [h2]
            simp [chosenDf, hs, Option.orElse]
        · exact Or.inr h2
    | none =>
      cases hperm : f.perm with
      | some df =>
        simp only [loadGo, hs, hperm] at h
        rcases ih _ h with h1 | h1
        · rcases h1 with ⟨g, hg, hgp⟩
          exact Or.inl ⟨g, List.mem_cons_of_mem f hg, hgp⟩
        · rcases mem_dictInsert p acc _ df h1 with h2 | h2
          · refine Or.inl ⟨f, List.mem_cons_self f fs, ?_, ?_⟩
            · rw [h2]
            · rw [h2]
              simp [chosenDf, hs, hperm, Option.orElse]
          · exact Or.inr h2
      | none =>
        simp only [loadGo, hs, hperm] at h
        exact Except.noConfusion h

/-- C6 counterexample: `A.csv` and `a.CSV` do NOT yield one table.  The loader
keys are the raw stripped base names, which are case-sensitive: the two files
get the distinct keys `"A"` and `"a"` and the output map has two entries. -/
theorem loader_case_sensitive_keys_cex :
    load_csvs_from_folder [⟨"A.csv", some dfG, none⟩, ⟨"a.CSV", some dfG2, none⟩] =
      Except.ok [("A", dfG), ("a", dfG2)] ∧
    ([("A", dfG), ("a", dfG2)] : TableMap).length = 2 ∧
    ("A" : String) ≠ "a" :=
  ⟨rfl, rfl, by decide⟩

/-- C6 (amended): overwriting happens only between files whose stripped base
names are exactly equal (string equality, case-sensitive): the loader's map
holds at most one entry per key, and the value stored under a key is the one
contributed by the last enumerated file with that exact stripped name.
`A.csv` and `a.CSV` have distinct keys and therefore yield two tables. -/
theorem loader_last_write_wins (files : List CsvFile) (m : TableMap) (k : String)
    (h : load_csvs_from_folder files = Except.ok m) :
    valueAt m k = specLast files k ∧ keyCount m k ≤ 1 := by
  constructor
  · have hv := loadGo_valueAt files [] m k h
    rw [hv]
    cases hsl : specLast files k <;> simp [Option.orElse, valueAt, List.find?]
  · exact loadGo_keyCount files [] m k h (by simp [keyCount_nil])

/-- Witness for C6 (amended): two files both named `dup.csv`; the second
one's DataFrame wins and the key `"dup"` appears once. -/
theorem loader_last_write_wins_witness :
    load_csvs_from_folder [⟨"dup.csv", some dfG, none⟩, ⟨"dup.csv", some dfG2, none⟩] =
      Except.ok [("dup", dfG2)] ∧
    (valueAt [("dup", dfG2)] "dup" =
      specLast [⟨"dup.csv", some dfG, none⟩, ⟨"dup.csv", some dfG2, none⟩] "dup" ∧
     keyCount [("dup", dfG2)] "dup" ≤ 1) :=
  ⟨rfl,
   loader_last_write_wins [⟨"dup.csv", some dfG, none⟩, ⟨"dup.csv", some dfG2, none⟩]
     [("dup", dfG2)] "dup" rfl⟩

/-- C8 counterexample: the loader key is NOT lowercased and spaces are NOT
replaced: `My Data.csv` appears in the output map under the raw key
`"My Data"`, while the Analytical Store registers the table under the
normalized name `"my_data"`, which differs from the key. -/
theorem loader_key_not_normalized_cex :
    load_csvs_from_folder [⟨"My Data.csv", some dfG, none⟩] =
      Except.ok [("My Data", dfG)] ∧
    normalizeName "My Data" = "my_data" ∧
    ("My Data" : String) ≠ "my_data" :=
  ⟨rfl, by decide, by decide⟩

/-- C8 (amended): the loader key — under which a table appears in the output
mapping and is later resolved — is the source base filename with only the
extension stripped (no lowercasing, no space replacement); lowercasing and
space-to-underscore normalization are applied only to the name under which
`create_duckdb_connection` registers the table in the store. -/
theorem loader_key_provenance (files : List CsvFile) (m : TableMap)
    (h : load_csvs_from_folder files = Except.ok m) :
    (∀ p ∈ m, ∃ f ∈ files, p.1 = splitextRoot f.fname ∧ chosenDf f = some p.2) ∧
    registeredNames m = m.map (fun p => normalizeName p.1) := by
  refine ⟨fun p hp => ?_, rfl⟩
  rcases loadGo_mem files [] m h p hp with h1 | h1
  · exact h1
  · exact absurd h1 (List.not_mem_nil p)

/-- Witness for C8 (amended) at a concrete single-file load. -/
theorem loader_key_provenance_witness :
    load_csvs_from_folder [⟨"Pay Data.csv", some dfG, none⟩] =
      Except.ok [("Pay Data", dfG)] ∧
    ((∀ p ∈ ([("Pay Data", dfG)] : TableMap),
        ∃ f ∈ [(⟨"Pay Data.csv", some dfG, none⟩ : CsvFile)],
          p.1 = splitextRoot f.fname ∧ chosenDf f = some p.2) ∧
     registeredNames [("Pay Data", dfG)] =
       ([("Pay Data", dfG)] : TableMap).map (fun p => normalizeName p.1)) :=
  ⟨rfl,
   loader_key_provenance [⟨"Pay Data.csv", some dfG, none⟩] [("Pay Data", dfG)] rfl⟩

end DvdDashboard
